import Mathlib

/-
Shallow embedding of the kubectl-head listing engine (pkg/head/head.go).

The embedding models:
  - GetResourceGVR and its pure splitting step (gvrToFind), with the external
    RESTMapper abstracted as a function argument;
  - Validate over the option record;
  - NewRestClient as a pure transformation of the relevant rest.Config fields;
  - Run as a recursive loop over an abstract page fetcher and an interactive
    input stream, producing a trace of observable events (requests issued,
    pages rendered, notices, prompts, token lines) plus a final result.

Machine integers (int64 Limit) are modeled as Int; overflow is irrelevant here
because the code only compares Limit to zero and passes it through unchanged.
-/

namespace KubectlHead

/-- GroupVersionResource: the (group, version, resource) triple from
k8s.io/apimachinery schema, as used by head.go. -/
structure GVR where
  group : String
  version : String
  resource : String
deriving DecidableEq

/-- Go strings.Split(s, ".") on the character list of the input: splits at
every dot, keeping empty parts, always returning at least one part. -/
def splitOnDot : List Char → List (List Char)
  | [] => [[]]
  | c :: rest =>
    if c = '.' then
      [] :: splitOnDot rest
    else
      match splitOnDot rest with
      | [] => [[c]]
      | p :: ps => (c :: p) :: ps

/-- The partial GVR built by GetResourceGVR from the lowered resource
argument: if strings.Split(arg, ".") has exactly two parts, the left part is
the resource and the right part the group; otherwise the whole argument is
the resource with an empty group (head.go lines 205 to 211). -/
def gvrToFind (resourceArg : String) : GVR :=
  let parts := splitOnDot resourceArg.data
  if parts.length = 2 then
    { group := String.mk (parts.getD 1 []), version := "",
      resource := String.mk (parts.getD 0 []) }
  else
    { group := "", version := "", resource := resourceArg }

/-- Post-processing of the external RESTMapper call in GetResourceGVR: a
mapper error is replaced by the not-found message naming the original
argument; a success is passed through. -/
def mapperResult (res : Except Unit GVR) (orig : String) : Except String GVR :=
  match res with
  | .error _ => .error ("the server does not have a resource type " ++ orig)
  | .ok gvr => .ok gvr

/-- The option record of the head command (head.go HeadOptions), restricted
to the fields the core engine reads. PrintFlags.OutputFormat is modeled as
the dereferenced string. -/
structure HeadOptions where
  Resource : String
  Limit : Int
  ContinueToken : String
  Interactive : Bool
  Selector : String
  AllNamespaces : Bool
  Namespace : String
  OutputFormat : String
deriving DecidableEq

/-- Go strings.ToLower, modeled as per-character ASCII case folding. Case
folding never produces or removes a dot, so the splitting claims are
unaffected by the restriction to ASCII. -/
def toLowerStr (s : String) : String :=
  String.mk (s.data.map Char.toLower)

/-- GetResourceGVR (head.go lines 199 to 219): lower-case the user argument,
build the partial GVR by dot-splitting, and hand it to the external
name-mapping service (Mapper.ResourceFor), abstracted as mapper. -/
def GetResourceGVR (mapper : GVR → Except Unit GVR) (o : HeadOptions) :
    Except String GVR :=
  mapperResult (mapper (gvrToFind (toLowerStr o.Resource))) o.Resource

/-- Validate (head.go lines 89 to 101): reject non-positive limits,
interactive combined with an explicit continue token, and interactive with a
non-table output format. -/
def Validate (o : HeadOptions) : Except String Unit :=
  if o.Limit ≤ 0 then
    .error "--limit must be a positive number"
  else if o.Interactive ∧ o.ContinueToken ≠ "" then
    .error "cannot use --interactive and --continue flags together"
  else if o.Interactive ∧ (o.OutputFormat ≠ "" ∧ o.OutputFormat ≠ "wide") then
    .error "interactive mode is only supported for standard and wide table output"
  else
    .ok ()

/-- Group and version pair (schema.GroupVersion). -/
structure GroupVersion where
  group : String
  version : String
deriving DecidableEq

/-- The fields of rest.Config that NewRestClient writes. -/
structure RestConfig where
  groupVersion : Option GroupVersion
  apiPath : String
  acceptContentTypes : String
deriving DecidableEq

/-- NewRestClient (head.go lines 186 to 196) as the pure configuration step:
bind the group and version, pick the API root path, and set the negotiated
accept content types; the actual client construction (rest.RESTClientFor) is
an external collaborator. -/
def NewRestClient (config : RestConfig) (gv : GroupVersion) : RestConfig :=
  let config := { config with groupVersion := some gv }
  let config := { config with apiPath := "/apis" }
  let config := if gv.group = "" then { config with apiPath := "/api" } else config
  { config with
      acceptContentTypes := "application/json;as=Table;v=v1;g=meta.k8s.io,application/json" }

/-- A decoded Table response (metav1.Table restricted to what Run reads):
the row cells and the continue token. -/
structure Table where
  rows : List (List String)
  continueToken : String
deriving DecidableEq

/-- The list options built each iteration (metav1.ListOptions restricted to
the fields Run sets: Limit, Continue, LabelSelector). -/
structure ListOptions where
  limit : Int
  continueToken : String
  labelSelector : String
deriving DecidableEq

/-- Observable events of one Run session: requests issued to the server and
everything written to the output streams. The page event stands for the
table printer rendering one page; prompt, newline, endMarker and tokenLine
stand for the corresponding writes in the loop. -/
inductive Event where
  | request (ns resource : String) (lo : ListOptions)
  | noResources
  | page (t : Table)
  | endMarker
  | prompt
  | newline
  | tokenLine (tok : String)
deriving DecidableEq

/-- The abstract page fetcher: one GET round trip (restClient.Get() ...
Into(table)) as a function of namespace, resource and list options. -/
def Fetcher : Type :=
  String → String → ListOptions → Except String Table

/-- The mutable state of one Run invocation: the receiver record plus the
two local loop variables continueToken and isFirstRequest. -/
structure RunState where
  opts : HeadOptions
  continueToken : String
  isFirstRequest : Bool
deriving DecidableEq

instance {α β : Type} [DecidableEq α] [DecidableEq β] :
    DecidableEq (Except α β) := fun a b =>
  match a, b with
  | .error x, .error y =>
    if h : x = y then .isTrue (by rw [h]) else .isFalse (by simp [h])
  | .ok x, .ok y =>
    if h : x = y then .isTrue (by rw [h]) else .isFalse (by simp [h])
  | .error _, .ok _ => .isFalse (by simp)
  | .ok _, .error _ => .isFalse (by simp)

/-- What one Run invocation produces: the event trace, the final state, and
the returned error or nil. -/
structure RunOutcome where
  trace : List Event
  final : RunState
  result : Except String Unit
deriving DecidableEq

/-- The list options of the next request in a given state (head.go lines
125 to 129). -/
def sessionListOptions (st : RunState) : ListOptions :=
  { limit := st.opts.Limit, continueToken := st.continueToken,
    labelSelector := st.opts.Selector }

/-- The for loop of Run (head.go lines 124 to 182) over an abstract fetcher
and a finite interactive input stream: fetch a page; on error abort with it;
on a first page with no rows print the notice and stop; otherwise render the
page, advance the token, and either stop (empty token), prompt and read one
character (interactive; an exhausted input stream is the read failure case,
returned as the EOF error exactly as reader.ReadRune returns io.EOF), or
print the token line and stop (non-interactive). -/
def runLoop (fetch : Fetcher) (ns resource : String) (st : RunState)
    (input : List Char) : RunOutcome :=
  let listOptions := sessionListOptions st
  let reqEvent := Event.request ns resource listOptions
  match fetch ns resource listOptions with
  | .error e => { trace := [reqEvent], final := st, result := .error e }
  | .ok table =>
    if st.isFirstRequest ∧ table.rows = [] then
      { trace := [reqEvent, .noResources], final := st, result := .ok () }
    else
      let st1 : RunState :=
        { st with isFirstRequest := false, continueToken := table.continueToken }
      if table.continueToken = "" then
        { trace := [reqEvent, .page table] ++
            (if st.opts.Interactive then [Event.endMarker] else []),
          final := st1, result := .ok () }
      else if st.opts.Interactive then
        match input with
        | [] =>
          { trace := [reqEvent, .page table, .prompt], final := st1,
            result := .error "EOF" }
        | c :: rest =>
          if c ≠ 'n' then
            { trace := [reqEvent, .page table, .prompt, .newline], final := st1,
              result := .ok () }
          else
            let out := runLoop fetch ns resource st1 rest
            { trace := [reqEvent, .page table, .prompt, .newline] ++ out.trace,
              final := out.final, result := out.result }
      else
        { trace := [reqEvent, .page table, .tokenLine table.continueToken],
          final := st1, result := .ok () }

/-- The initial state of a Run invocation (head.go lines 121 to 122). -/
def initialState (o : HeadOptions) : RunState :=
  { opts := o, continueToken := o.ContinueToken, isFirstRequest := true }

/-- The namespace Run queries: empty when AllNamespaces is set (head.go
lines 110 to 113). -/
def effectiveNamespace (o : HeadOptions) : String :=
  if o.AllNamespaces then "" else o.Namespace

/-- Run (head.go lines 104 to 183): resolve the GVR (aborting on failure
with an empty trace), compute the namespace, and enter the pagination loop.
The rest client construction is modeled by NewRestClient and abstracted
into the fetcher. -/
def Run (o : HeadOptions) (mapper : GVR → Except Unit GVR) (fetch : Fetcher)
    (input : List Char) : RunOutcome :=
  match GetResourceGVR mapper o with
  | .error e => { trace := [], final := initialState o, result := .error e }
  | .ok gvr =>
    runLoop fetch (effectiveNamespace o) gvr.resource (initialState o) input

/-- The requests a trace contains, in order. -/
def requestsOf (tr : List Event) : List (String × String × ListOptions) :=
  tr.filterMap fun e =>
    match e with
    | .request ns r lo => some (ns, r, lo)
    | _ => none

-- Helper lemmas about splitOnDot.

theorem splitOnDot_ne_nil (l : List Char) : splitOnDot l ≠ [] := by
  cases l with
  | nil => simp [splitOnDot]
  | cons c rest =>
    simp only [splitOnDot]
    split
    · simp
    · split <;> simp

theorem splitOnDot_no_dot (l : List Char) (h : '.' ∉ l) : splitOnDot l = [l] := by
  induction l with
  | nil => simp [splitOnDot]
  | cons c rest ih =>
    simp only [List.mem_cons, not_or] at h
    have hc : c ≠ '.' := fun hc => h.1 hc.symm
    simp only [splitOnDot, if_neg hc, ih h.2]

theorem splitOnDot_cons_dot (l : List Char) :
    splitOnDot ('.' :: l) = [] :: splitOnDot l := by
  simp [splitOnDot]

theorem splitOnDot_cons_ne (c : Char) (l : List Char) (hc : c ≠ '.') :
    splitOnDot (c :: l) =
      (c :: (splitOnDot l).headD []) :: (splitOnDot l).tail := by
  simp only [splitOnDot, if_neg hc]
  rcases h : splitOnDot l with _ | ⟨p, ps⟩
  · exact absurd h (splitOnDot_ne_nil l)
  · simp

theorem splitOnDot_append_dot (xs ys : List Char) :
    splitOnDot (xs ++ '.' :: ys) = splitOnDot xs ++ splitOnDot ys := by
  induction xs with
  | nil => simp [splitOnDot, splitOnDot_cons_dot]
  | cons c rest ih =>
    by_cases hc : c = '.'
    · subst hc
      rw [List.cons_append, splitOnDot_cons_dot, splitOnDot_cons_dot, ih,
        List.cons_append]
    · rw [List.cons_append, splitOnDot_cons_ne c _ hc, splitOnDot_cons_ne c rest hc,
        ih]
      rcases h : splitOnDot rest with _ | ⟨p, ps⟩
      · exact absurd h (splitOnDot_ne_nil rest)
      · simp

theorem length_splitOnDot_pos (l : List Char) : 0 < (splitOnDot l).length :=
  List.length_pos.mpr (splitOnDot_ne_nil l)

theorem dot_data : ("." : String).data = ['.'] := rfl

theorem mk_data (s : String) : String.mk s.data = s := rfl

-- Behavior of gvrToFind on the three shapes of input.

theorem gvrToFind_one_dot (l r : String) (hl : '.' ∉ l.data) (hr : '.' ∉ r.data) :
    gvrToFind (l ++ "." ++ r) = { group := r, version := "", resource := l } := by
  have hdata : (l ++ "." ++ r).data = l.data ++ '.' :: r.data := by
    rw [String.data_append, String.data_append, dot_data]
    simp
  simp only [gvrToFind, hdata, splitOnDot_append_dot, splitOnDot_no_dot l.data hl,
    splitOnDot_no_dot r.data hr]
  simp [mk_data]

theorem gvrToFind_no_dot (s : String) (h : '.' ∉ s.data) :
    gvrToFind s = { group := "", version := "", resource := s } := by
  simp [gvrToFind, splitOnDot_no_dot s.data h]

theorem gvrToFind_many_dots (a b c : String) :
    gvrToFind (a ++ "." ++ b ++ "." ++ c) =
      { group := "", version := "",
        resource := a ++ "." ++ b ++ "." ++ c } := by
  have hdata : (a ++ "." ++ b ++ "." ++ c).data =
      a.data ++ '.' :: (b.data ++ '.' :: c.data) := by
    rw [String.data_append, String.data_append, String.data_append,
      String.data_append, dot_data]
    simp
  have ha := length_splitOnDot_pos a.data
  have hb := length_splitOnDot_pos b.data
  have hc := length_splitOnDot_pos c.data
  simp only [gvrToFind, hdata, splitOnDot_append_dot]
  rw [if_neg (by simp only [List.length_append]; omega)]

/-- C3: resolution lower-cases the input; a lowered string with exactly one
dot is split into resource (left) and group (right); with no dot the whole
string is the resource with an empty group; with two or more dots the whole
string is passed unsplit, as the resource field, to the external mapping
service. -/
theorem resolution_dot_splitting (mapper : GVR → Except Unit GVR)
    (o : HeadOptions) (l r s : String)
    (hl : '.' ∉ l.data) (hr : '.' ∉ r.data) (hs : '.' ∉ s.data) :
    (toLowerStr o.Resource = l ++ "." ++ r →
      GetResourceGVR mapper o =
        mapperResult (mapper { group := r, version := "", resource := l })
          o.Resource) ∧
    (toLowerStr o.Resource = s →
      GetResourceGVR mapper o =
        mapperResult (mapper { group := "", version := "", resource := s })
          o.Resource) ∧
    (∀ a b c : String, toLowerStr o.Resource = a ++ "." ++ b ++ "." ++ c →
      GetResourceGVR mapper o =
        mapperResult
          (mapper { group := "", version := "",
                    resource := a ++ "." ++ b ++ "." ++ c }) o.Resource) := by
  refine ⟨fun h => ?_, fun h => ?_, fun a b c h => ?_⟩
  · rw [GetResourceGVR, h, gvrToFind_one_dot l r hl hr]
  · rw [GetResourceGVR, h, gvrToFind_no_dot s hs]
  · rw [GetResourceGVR, h, gvrToFind_many_dots a b c]

/-- C3 witness: the three cases of resolution_dot_splitting evaluated on
concrete inputs, including a mixed-case one-dot input. -/
theorem resolution_dot_splitting_witness :
    GetResourceGVR (fun g => .ok g)
        { Resource := "Deployments.Apps", Limit := 10, ContinueToken := "",
          Interactive := false, Selector := "", AllNamespaces := false,
          Namespace := "", OutputFormat := "" } =
      .ok { group := "apps", version := "", resource := "deployments" } ∧
    GetResourceGVR (fun g => .ok g)
        { Resource := "pods", Limit := 10, ContinueToken := "",
          Interactive := false, Selector := "", AllNamespaces := false,
          Namespace := "", OutputFormat := "" } =
      .ok { group := "", version := "", resource := "pods" } ∧
    GetResourceGVR (fun g => .ok g)
        { Resource := "a.b.c", Limit := 10, ContinueToken := "",
          Interactive := false, Selector := "", AllNamespaces := false,
          Namespace := "", OutputFormat := "" } =
      .ok { group := "", version := "", resource := "a.b.c" } := by
  refine ⟨?_, ?_, ?_⟩
  · rw [(resolution_dot_splitting (fun g => .ok g)
      { Resource := "Deployments.Apps", Limit := 10, ContinueToken := "",
        Interactive := false, Selector := "", AllNamespaces := false,
        Namespace := "", OutputFormat := "" } "deployments" "apps" "x"
      (by decide) (by decide) (by decide)).1 (by decide)]
    rfl
  · rw [(resolution_dot_splitting (fun g => .ok g)
      { Resource := "pods", Limit := 10, ContinueToken := "",
        Interactive := false, Selector := "", AllNamespaces := false,
        Namespace := "", OutputFormat := "" } "x" "y" "pods"
      (by decide) (by decide) (by decide)).2.1 (by decide)]
    rfl
  · rw [(resolution_dot_splitting (fun g => .ok g)
      { Resource := "a.b.c", Limit := 10, ContinueToken := "",
        Interactive := false, Selector := "", AllNamespaces := false,
        Namespace := "", OutputFormat := "" } "x" "y" "z"
      (by decide) (by decide) (by decide)).2.2 "a" "b" "c" (by decide)]
    rfl

/-- C8: a lowered input with exactly one dot as its last character is split
into resource = the part before the dot and group = the empty string, still
queried against the mapping service, and is not passed through unsplit. -/
theorem resolution_trailing_dot (mapper : GVR → Except Unit GVR)
    (o : HeadOptions) (l : String) (hl : '.' ∉ l.data)
    (h : toLowerStr o.Resource = l ++ ".") :
    GetResourceGVR mapper o =
      mapperResult (mapper { group := "", version := "", resource := l })
        o.Resource ∧
    gvrToFind (l ++ ".") = { group := "", version := "", resource := l } ∧
    gvrToFind (l ++ ".") ≠
      { group := "", version := "", resource := l ++ "." } := by
  have hsplit : gvrToFind (l ++ ".") =
      { group := "", version := "", resource := l } := by
    have hempty : (l ++ "." ++ "") = l ++ "." := by
      apply String.ext
      rw [String.data_append]
      simp
    have := gvrToFind_one_dot l "" hl (by decide)
    rw [hempty] at this
    rw [this]
  refine ⟨?_, hsplit, ?_⟩
  · rw [GetResourceGVR, h, hsplit]
  · rw [hsplit]
    intro hcontra
    have hres : l = l ++ "." := congrArg GVR.resource hcontra
    have hlen : l.data.length = l.data.length + 1 := by
      conv_lhs => rw [hres]
      rw [String.data_append, dot_data]
      simp
    omega

/-- C8 witness: the trailing-dot split on the concrete input "pods.". -/
theorem resolution_trailing_dot_witness :
    GetResourceGVR (fun g => .ok g)
        { Resource := "pods.", Limit := 10, ContinueToken := "",
          Interactive := false, Selector := "", AllNamespaces := false,
          Namespace := "", OutputFormat := "" } =
      .ok { group := "", version := "", resource := "pods" } := by
  rw [(resolution_trailing_dot (fun g => .ok g)
    { Resource := "pods.", Limit := 10, ContinueToken := "",
      Interactive := false, Selector := "", AllNamespaces := false,
      Namespace := "", OutputFormat := "" } "pods" (by decide)
    (by decide)).1]
  rfl

/-- C5: Validate succeeds exactly when the limit is positive, interactive is
not combined with a non-empty continue token, and interactive is not
combined with an output format other than the default or wide; it returns
an error whenever any of the three conditions is violated. -/
theorem validate_ok_iff (o : HeadOptions) :
    Validate o = .ok () ↔
      0 < o.Limit ∧
        ¬(o.Interactive = true ∧ o.ContinueToken ≠ "") ∧
        ¬(o.Interactive = true ∧ o.OutputFormat ≠ "" ∧
          o.OutputFormat ≠ "wide") := by
  unfold Validate
  split_ifs with h1 h2 h3
  · simp only [reduceCtorEq, false_iff]
    intro hc
    omega
  · simp only [reduceCtorEq, false_iff]
    intro hc
    exact hc.2.1 h2
  · simp only [reduceCtorEq, false_iff]
    intro hc
    exact hc.2.2 h3
  · simp only [true_iff]
    exact ⟨by omega, h2, h3⟩

/-- C5 witness: validate_ok_iff evaluated on a concrete valid option record
and on the three concrete violations. -/
theorem validate_ok_iff_witness :
    Validate
        { Resource := "pods", Limit := 10, ContinueToken := "",
          Interactive := false, Selector := "", AllNamespaces := false,
          Namespace := "", OutputFormat := "" } = .ok () ∧
    Validate
        { Resource := "pods", Limit := 0, ContinueToken := "",
          Interactive := false, Selector := "", AllNamespaces := false,
          Namespace := "", OutputFormat := "" } ≠ .ok () ∧
    Validate
        { Resource := "pods", Limit := 10, ContinueToken := "tok",
          Interactive := true, Selector := "", AllNamespaces := false,
          Namespace := "", OutputFormat := "" } ≠ .ok () ∧
    Validate
        { Resource := "pods", Limit := 10, ContinueToken := "",
          Interactive := true, Selector := "", AllNamespaces := false,
          Namespace := "", OutputFormat := "json" } ≠ .ok () := by
  refine ⟨(validate_ok_iff _).mpr (by decide), ?_, ?_, ?_⟩
  · intro h
    exact absurd ((validate_ok_iff _).mp h) (by decide)
  · intro h
    exact absurd ((validate_ok_iff _).mp h) (by decide)
  · intro h
    exact absurd ((validate_ok_iff _).mp h) (by decide)

/-- C6: the constructed client configuration uses the core API root /api
when the group is empty and the extension API root /apis otherwise, binds
the group and version, and negotiates the Table media type with plain JSON
as the fallback. -/
theorem restclient_config (config : RestConfig) (gv : GroupVersion) :
    (gv.group = "" → (NewRestClient config gv).apiPath = "/api") ∧
    (gv.group ≠ "" → (NewRestClient config gv).apiPath = "/apis") ∧
    (NewRestClient config gv).acceptContentTypes =
      "application/json;as=Table;v=v1;g=meta.k8s.io" ++ "," ++
        "application/json" ∧
    (NewRestClient config gv).groupVersion = some gv := by
  refine ⟨fun h => ?_, fun h => ?_, ?_, ?_⟩
  · simp [NewRestClient, h]
  · simp [NewRestClient, h]
  · by_cases h : gv.group = "" <;> simp [NewRestClient, h]
  · by_cases h : gv.group = "" <;> simp [NewRestClient, h]

/-- C6 witness: restclient_config evaluated at an empty and a non-empty
group. -/
theorem restclient_config_witness :
    (NewRestClient { groupVersion := none, apiPath := "", acceptContentTypes := "" }
        { group := "", version := "v1" }).apiPath = "/api" ∧
    (NewRestClient { groupVersion := none, apiPath := "", acceptContentTypes := "" }
        { group := "apps", version := "v1" }).apiPath = "/apis" := by
  exact ⟨(restclient_config _ _).1 rfl,
    (restclient_config _ _).2.1 (by decide)⟩

-- Every runLoop trace begins with the request of the current state.

theorem runLoop_trace_head (fetch : Fetcher) (ns resource : String)
    (st : RunState) (input : List Char) :
    (runLoop fetch ns resource st input).trace.head? =
      some (Event.request ns resource (sessionListOptions st)) := by
  rw [runLoop]
  rcases hf : fetch ns resource (sessionListOptions st) with e | t
  · simp
  · simp only []
    cases input with
    | nil => split_ifs <;> simp
    | cons c rest => split_ifs <;> simp [apply_ite]

/-- C7: a failed page fetch on any iteration aborts the whole session with
that error: the trace of the aborted iteration holds only the request, so
no output is written for the page and no further request is issued. -/
theorem run_fetch_error_aborts (fetch : Fetcher) (ns resource : String)
    (st : RunState) (input : List Char) (e : String)
    (hfetch : fetch ns resource (sessionListOptions st) = .error e) :
    (runLoop fetch ns resource st input).result = .error e ∧
    (runLoop fetch ns resource st input).trace =
      [Event.request ns resource (sessionListOptions st)] := by
  rw [runLoop, hfetch]
  exact ⟨rfl, rfl⟩

/-- C7 witness: a concrete session whose fetch fails with the error boom. -/
theorem run_fetch_error_aborts_witness :
    (runLoop (fun _ _ _ => .error "boom") "ns" "pods"
        { opts := { Resource := "pods", Limit := 2, ContinueToken := "",
                    Interactive := false, Selector := "",
                    AllNamespaces := false, Namespace := "ns",
                    OutputFormat := "" },
          continueToken := "", isFirstRequest := true } []).result =
      .error "boom" :=
  (run_fetch_error_aborts (fun _ _ _ => .error "boom") "ns" "pods"
    { opts := { Resource := "pods", Limit := 2, ContinueToken := "",
                Interactive := false, Selector := "",
                AllNamespaces := false, Namespace := "ns",
                OutputFormat := "" },
      continueToken := "", isFirstRequest := true } [] "boom" rfl).1

/-- C1: after a rendered page the driver acts on the returned token: with an
empty token the run ends successfully, the trace ending with the end-of-list
marker exactly when the session is interactive; with a non-empty token in a
non-interactive session the token line is the final output, the run ends
successfully, and exactly one request was issued. -/
theorem run_token_dispatch (fetch : Fetcher) (ns resource : String)
    (st : RunState) (input : List Char) (table : Table)
    (hfetch : fetch ns resource (sessionListOptions st) = .ok table)
    (hne : ¬(st.isFirstRequest = true ∧ table.rows = [])) :
    (table.continueToken = "" →
      (runLoop fetch ns resource st input).result = .ok () ∧
      (runLoop fetch ns resource st input).trace =
        [Event.request ns resource (sessionListOptions st),
         Event.page table] ++
          (if st.opts.Interactive then [Event.endMarker] else [])) ∧
    (table.continueToken ≠ "" → st.opts.Interactive = false →
      (runLoop fetch ns resource st input).result = .ok () ∧
      (runLoop fetch ns resource st input).trace =
        [Event.request ns resource (sessionListOptions st), Event.page table,
         Event.tokenLine table.continueToken] ∧
      (requestsOf (runLoop fetch ns resource st input).trace).length = 1) := by
  constructor
  · intro htok
    rw [runLoop]
    simp only [hfetch]
    rw [if_neg hne, if_pos htok]
    exact ⟨rfl, rfl⟩
  · intro htok hint
    rw [runLoop]
    simp only [hfetch]
    rw [if_neg hne, if_neg htok, if_neg (by simp [hint])]
    exact ⟨rfl, rfl, rfl⟩

/-- C1 witness: run_token_dispatch evaluated on a concrete interactive
session whose page has an empty token (end marker printed) and on a
concrete non-interactive session whose page has the token T (token line
printed, one request). -/
theorem run_token_dispatch_witness :
    ((runLoop (fun _ _ _ => .ok { rows := [["a"]], continueToken := "" })
        "ns" "pods"
        { opts := { Resource := "pods", Limit := 2, ContinueToken := "",
                    Interactive := true, Selector := "",
                    AllNamespaces := false, Namespace := "ns",
                    OutputFormat := "" },
          continueToken := "", isFirstRequest := true } []).trace =
      [Event.request "ns" "pods"
        { limit := 2, continueToken := "", labelSelector := "" },
       Event.page { rows := [["a"]], continueToken := "" },
       Event.endMarker]) ∧
    ((runLoop (fun _ _ _ => .ok { rows := [["a"]], continueToken := "T" })
        "ns" "pods"
        { opts := { Resource := "pods", Limit := 2, ContinueToken := "",
                    Interactive := false, Selector := "",
                    AllNamespaces := false, Namespace := "ns",
                    OutputFormat := "" },
          continueToken := "", isFirstRequest := true } []).trace =
      [Event.request "ns" "pods"
        { limit := 2, continueToken := "", labelSelector := "" },
       Event.page { rows := [["a"]], continueToken := "T" },
       Event.tokenLine "T"]) := by
  constructor
  · have h := ((run_token_dispatch
      (fun _ _ _ => .ok { rows := [["a"]], continueToken := "" }) "ns" "pods"
      { opts := { Resource := "pods", Limit := 2, ContinueToken := "",
                  Interactive := true, Selector := "",
                  AllNamespaces := false, Namespace := "ns",
                  OutputFormat := "" },
        continueToken := "", isFirstRequest := true } []
      { rows := [["a"]], continueToken := "" } rfl (by decide)).1 rfl).2
    rw [h]
    rfl
  · have h := ((run_token_dispatch
      (fun _ _ _ => .ok { rows := [["a"]], continueToken := "T" }) "ns" "pods"
      { opts := { Resource := "pods", Limit := 2, ContinueToken := "",
                  Interactive := false, Selector := "",
                  AllNamespaces := false, Namespace := "ns",
                  OutputFormat := "" },
        continueToken := "", isFirstRequest := true } []
      { rows := [["a"]], continueToken := "T" } rfl (by decide)).2
      (by decide) rfl).2.1
    rw [h]
    rfl

/-- C2 (amended): in interactive mode, after a page with a non-empty
continuation token, the engine reads one input character: the accept
character n leads to exactly one further request, carrying that token, as
the very next event; any other character ends the session normally with no
error and no further request; a failed read (exhausted input) ends the
session with the read error and no further request. -/
theorem run_interactive_input (fetch : Fetcher) (ns resource : String)
    (st : RunState) (input : List Char) (table : Table)
    (hfetch : fetch ns resource (sessionListOptions st) = .ok table)
    (hne : ¬(st.isFirstRequest = true ∧ table.rows = []))
    (hint : st.opts.Interactive = true)
    (htok : table.continueToken ≠ "") :
    (input = [] →
      (runLoop fetch ns resource st input).result = .error "EOF" ∧
      (runLoop fetch ns resource st input).trace =
        [Event.request ns resource (sessionListOptions st), Event.page table,
         Event.prompt]) ∧
    (∀ c rest, input = c :: rest → c ≠ 'n' →
      (runLoop fetch ns resource st input).result = .ok () ∧
      (runLoop fetch ns resource st input).trace =
        [Event.request ns resource (sessionListOptions st), Event.page table,
         Event.prompt, Event.newline]) ∧
    (∀ rest, input = 'n' :: rest →
      (runLoop fetch ns resource st input).trace =
        [Event.request ns resource (sessionListOptions st), Event.page table,
         Event.prompt, Event.newline] ++
          (runLoop fetch ns resource
            { st with isFirstRequest := false,
                      continueToken := table.continueToken } rest).trace ∧
      (runLoop fetch ns resource
          { st with isFirstRequest := false,
                    continueToken := table.continueToken } rest).trace.head? =
        some (Event.request ns resource
          { limit := st.opts.Limit, continueToken := table.continueToken,
            labelSelector := st.opts.Selector })) := by
  refine ⟨fun hin => ?_, fun c rest hin hc => ?_, fun rest hin => ?_⟩
  · subst hin
    rw [runLoop]
    simp only [hfetch]
    rw [if_neg hne, if_neg htok, if_pos hint]
    exact ⟨rfl, rfl⟩
  · subst hin
    rw [runLoop]
    simp only [hfetch]
    rw [if_neg hne, if_neg htok, if_pos hint]
    simp [hc]
  · subst hin
    rw [runLoop]
    simp only [hfetch]
    rw [if_neg hne, if_neg htok, if_pos hint]
    refine ⟨by simp, ?_⟩
    rw [runLoop_trace_head]
    rfl

/-- C2 counterexample: a concrete interactive session whose single input
read fails (exhausted input): the session does terminate without a further
request, but Run returns the read error rather than a normal no-error
return, refuting the read-failure part of the claim as stated. -/
theorem run_interactive_read_failure :
    (Run { Resource := "pods", Limit := 1, ContinueToken := "",
           Interactive := true, Selector := "", AllNamespaces := false,
           Namespace := "d", OutputFormat := "" }
        (fun g => .ok { group := g.group, version := "v1",
                        resource := g.resource })
        (fun _ _ _ => .ok { rows := [["pod-a"]], continueToken := "T" })
        []).result ≠ .ok () ∧
    (Run { Resource := "pods", Limit := 1, ContinueToken := "",
           Interactive := true, Selector := "", AllNamespaces := false,
           Namespace := "d", OutputFormat := "" }
        (fun g => .ok { group := g.group, version := "v1",
                        resource := g.resource })
        (fun _ _ _ => .ok { rows := [["pod-a"]], continueToken := "T" })
        []).result = .error "EOF" := by
  exact ⟨by decide, by decide⟩

/-- C2 witness: run_interactive_input evaluated on a concrete session for
each of the three input cases (read failure, the character q, the accept
character n). -/
theorem run_interactive_input_witness :
    ((runLoop (fun _ _ _ => .ok { rows := [["a"]], continueToken := "T" })
        "ns" "pods"
        { opts := { Resource := "pods", Limit := 2, ContinueToken := "",
                    Interactive := true, Selector := "",
                    AllNamespaces := false, Namespace := "ns",
                    OutputFormat := "" },
          continueToken := "", isFirstRequest := true } []).result =
      .error "EOF") ∧
    ((runLoop (fun _ _ _ => .ok { rows := [["a"]], continueToken := "T" })
        "ns" "pods"
        { opts := { Resource := "pods", Limit := 2, ContinueToken := "",
                    Interactive := true, Selector := "",
                    AllNamespaces := false, Namespace := "ns",
                    OutputFormat := "" },
          continueToken := "", isFirstRequest := true } ['q']).result =
      .ok ()) ∧
    ((runLoop (fun _ _ _ => .ok { rows := [["a"]], continueToken := "T" })
        "ns" "pods"
        { opts := { Resource := "pods", Limit := 2, ContinueToken := "",
                    Interactive := true, Selector := "",
                    AllNamespaces := false, Namespace := "ns",
                    OutputFormat := "" },
          continueToken := "T", isFirstRequest := false } []).trace.head? =
      some (Event.request "ns" "pods"
        { limit := 2, continueToken := "T", labelSelector := "" })) := by
  refine ⟨?_, ?_, ?_⟩
  · exact ((run_interactive_input
      (fun _ _ _ => .ok { rows := [["a"]], continueToken := "T" }) "ns" "pods"
      { opts := { Resource := "pods", Limit := 2, ContinueToken := "",
                  Interactive := true, Selector := "",
                  AllNamespaces := false, Namespace := "ns",
                  OutputFormat := "" },
        continueToken := "", isFirstRequest := true } []
      { rows := [["a"]], continueToken := "T" } rfl (by decide) rfl
      (by decide)).1 rfl).1
  · exact ((run_interactive_input
      (fun _ _ _ => .ok { rows := [["a"]], continueToken := "T" }) "ns" "pods"
      { opts := { Resource := "pods", Limit := 2, ContinueToken := "",
                  Interactive := true, Selector := "",
                  AllNamespaces := false, Namespace := "ns",
                  OutputFormat := "" },
        continueToken := "", isFirstRequest := true } ['q']
      { rows := [["a"]], continueToken := "T" } rfl (by decide) rfl
      (by decide)).2.1 'q' [] rfl (by decide)).1
  · exact ((run_interactive_input
      (fun _ _ _ => .ok { rows := [["a"]], continueToken := "T" }) "ns" "pods"
      { opts := { Resource := "pods", Limit := 2, ContinueToken := "",
                  Interactive := true, Selector := "",
                  AllNamespaces := false, Namespace := "ns",
                  OutputFormat := "" },
        continueToken := "", isFirstRequest := true } ['n']
      { rows := [["a"]], continueToken := "T" } rfl (by decide) rfl
      (by decide)).2.2 [] rfl).2

/-- C4: if the first request of a session, whether or not it starts with an
explicit continuation token, returns a page with no rows, the run writes
exactly the one no-resources notice and ends successfully: no page is
rendered, no token line, prompt or end marker is printed, and no further
request is issued; the one request carried the initial token. -/
theorem run_first_page_no_rows (o : HeadOptions)
    (mapper : GVR → Except Unit GVR) (fetch : Fetcher) (input : List Char)
    (gvr : GVR) (table : Table)
    (hgvr : GetResourceGVR mapper o = .ok gvr)
    (hfetch : fetch (effectiveNamespace o) gvr.resource
        (sessionListOptions (initialState o)) = .ok table)
    (hrows : table.rows = []) :
    (Run o mapper fetch input).result = .ok () ∧
    (Run o mapper fetch input).trace =
      [Event.request (effectiveNamespace o) gvr.resource
         (sessionListOptions (initialState o)),
       Event.noResources] ∧
    sessionListOptions (initialState o) =
      { limit := o.Limit, continueToken := o.ContinueToken,
        labelSelector := o.Selector } := by
  simp only [Run, hgvr]
  rw [runLoop]
  simp only [hfetch]
  rw [if_pos ⟨rfl, hrows⟩]
  exact ⟨rfl, rfl, rfl⟩

/-- C4 witness: a concrete non-interactive session starting mid-sequence
with the explicit token start whose first page is empty. -/
theorem run_first_page_no_rows_witness :
    (Run { Resource := "pods", Limit := 3, ContinueToken := "start",
           Interactive := false, Selector := "", AllNamespaces := false,
           Namespace := "d", OutputFormat := "" }
        (fun g => .ok { group := g.group, version := "v1",
                        resource := g.resource })
        (fun _ _ _ => .ok { rows := [], continueToken := "ignored" })
        []).result = .ok () ∧
    (Run { Resource := "pods", Limit := 3, ContinueToken := "start",
           Interactive := false, Selector := "", AllNamespaces := false,
           Namespace := "d", OutputFormat := "" }
        (fun g => .ok { group := g.group, version := "v1",
                        resource := g.resource })
        (fun _ _ _ => .ok { rows := [], continueToken := "ignored" })
        []).trace =
      [Event.request "d" "pods"
         { limit := 3, continueToken := "start", labelSelector := "" },
       Event.noResources] := by
  have h := run_first_page_no_rows
    { Resource := "pods", Limit := 3, ContinueToken := "start",
      Interactive := false, Selector := "", AllNamespaces := false,
      Namespace := "d", OutputFormat := "" }
    (fun g => .ok { group := g.group, version := "v1",
                    resource := g.resource })
    (fun _ _ _ => .ok { rows := [], continueToken := "ignored" })
    [] { group := "", version := "v1", resource := "pods" }
    { rows := [], continueToken := "ignored" } (by decide) rfl rfl
  refine ⟨h.1, ?_⟩
  rw [h.2.1]
  rfl

-- Once isFirstRequest is false it stays false, so the notice can never
-- appear later in a session.

theorem runLoop_no_notice (fetch : Fetcher) (ns resource : String) :
    ∀ (input : List Char) (st : RunState), st.isFirstRequest = false →
      Event.noResources ∉ (runLoop fetch ns resource st input).trace := by
  intro input
  induction input with
  | nil =>
    intro st hfirst
    rw [runLoop]
    split
    · simp
    · rename_i table heq
      dsimp only
      rw [if_neg (by simp [hfirst])]
      by_cases h2 : table.continueToken = ""
      · rw [if_pos h2]
        simp
      · rw [if_neg h2]
        by_cases h3 : st.opts.Interactive = true
        · rw [if_pos h3]
          simp
        · rw [if_neg h3]
          simp
  | cons c rest ih =>
    intro st hfirst
    rw [runLoop]
    split
    · simp
    · rename_i table heq
      dsimp only
      rw [if_neg (by simp [hfirst])]
      by_cases h2 : table.continueToken = ""
      · rw [if_pos h2]
        simp
      · rw [if_neg h2]
        by_cases h3 : st.opts.Interactive = true
        · rw [if_pos h3]
          by_cases h4 : c = 'n'
          · subst h4
            simp
            exact ih _ rfl
          · simp [h4]
        · rw [if_neg h3]
          simp

/-- C9: the no-resources short-circuit applies only to the first request of
a session: in any state past the first request the notice never appears in
the remaining trace, and a later page with zero rows is still rendered (the
request and page events open the remaining trace). -/
theorem run_notice_only_first (fetch : Fetcher) (ns resource : String)
    (st : RunState) (input : List Char)
    (hfirst : st.isFirstRequest = false) :
    Event.noResources ∉ (runLoop fetch ns resource st input).trace ∧
    (∀ table, fetch ns resource (sessionListOptions st) = .ok table →
      table.rows = [] →
      (runLoop fetch ns resource st input).trace.take 2 =
        [Event.request ns resource (sessionListOptions st),
         Event.page table]) := by
  refine ⟨runLoop_no_notice fetch ns resource input st hfirst,
    fun table hf hrows => ?_⟩
  rw [runLoop]
  simp only [hf]
  rw [if_neg (by simp [hfirst])]
  cases input with
  | nil => split_ifs <;> simp
  | cons c rest => split_ifs <;> simp [apply_ite]

/-- C9 witness: a concrete interactive session in which the second page has
zero rows and an empty token: no notice appears and the empty page is
rendered. -/
theorem run_notice_only_first_witness :
    Event.noResources ∉
      (runLoop (fun _ _ _ => .ok { rows := [], continueToken := "" })
        "ns" "pods"
        { opts := { Resource := "pods", Limit := 2, ContinueToken := "",
                    Interactive := true, Selector := "",
                    AllNamespaces := false, Namespace := "ns",
                    OutputFormat := "" },
          continueToken := "T", isFirstRequest := false } []).trace ∧
    (runLoop (fun _ _ _ => .ok { rows := [], continueToken := "" })
        "ns" "pods"
        { opts := { Resource := "pods", Limit := 2, ContinueToken := "",
                    Interactive := true, Selector := "",
                    AllNamespaces := false, Namespace := "ns",
                    OutputFormat := "" },
          continueToken := "T", isFirstRequest := false } []).trace.take 2 =
      [Event.request "ns" "pods"
         { limit := 2, continueToken := "T", labelSelector := "" },
       Event.page { rows := [], continueToken := "" }] := by
  have h := run_notice_only_first
    (fun _ _ _ => .ok { rows := [], continueToken := "" }) "ns" "pods"
    { opts := { Resource := "pods", Limit := 2, ContinueToken := "",
                Interactive := true, Selector := "",
                AllNamespaces := false, Namespace := "ns",
                OutputFormat := "" },
      continueToken := "T", isFirstRequest := false } [] rfl
  refine ⟨h.1, ?_⟩
  rw [h.2 { rows := [], continueToken := "" } rfl rfl]
  rfl

-- The loop never writes to the option record, and every request it issues
-- carries the limit, selector, namespace and resource fixed at entry.

theorem runLoop_frame (fetch : Fetcher) (ns resource : String) :
    ∀ (input : List Char) (st : RunState),
      (runLoop fetch ns resource st input).final.opts = st.opts ∧
      ∀ q ∈ requestsOf (runLoop fetch ns resource st input).trace,
        q.1 = ns ∧ q.2.1 = resource ∧ q.2.2.limit = st.opts.Limit ∧
          q.2.2.labelSelector = st.opts.Selector := by
  intro input
  induction input with
  | nil =>
    intro st
    rw [runLoop]
    split
    · refine ⟨rfl, fun q hq => ?_⟩
      simp [requestsOf, sessionListOptions] at hq
      subst hq
      exact ⟨rfl, rfl, rfl, rfl⟩
    · rename_i table heq
      dsimp only
      by_cases h1 : st.isFirstRequest = true ∧ table.rows = []
      · rw [if_pos h1]
        refine ⟨rfl, fun q hq => ?_⟩
        simp [requestsOf, sessionListOptions] at hq
        subst hq
        exact ⟨rfl, rfl, rfl, rfl⟩
      · rw [if_neg h1]
        by_cases h2 : table.continueToken = ""
        · rw [if_pos h2]
          refine ⟨rfl, fun q hq => ?_⟩
          simp [requestsOf, sessionListOptions, apply_ite] at hq
          subst hq
          exact ⟨rfl, rfl, rfl, rfl⟩
        · rw [if_neg h2]
          by_cases h3 : st.opts.Interactive = true
          · rw [if_pos h3]
            refine ⟨rfl, fun q hq => ?_⟩
            simp [requestsOf, sessionListOptions] at hq
            subst hq
            exact ⟨rfl, rfl, rfl, rfl⟩
          · rw [if_neg h3]
            refine ⟨rfl, fun q hq => ?_⟩
            simp [requestsOf, sessionListOptions] at hq
            subst hq
            exact ⟨rfl, rfl, rfl, rfl⟩
  | cons c rest ih =>
    intro st
    rw [runLoop]
    split
    · refine ⟨rfl, fun q hq => ?_⟩
      simp [requestsOf, sessionListOptions] at hq
      subst hq
      exact ⟨rfl, rfl, rfl, rfl⟩
    · rename_i table heq
      dsimp only
      by_cases h1 : st.isFirstRequest = true ∧ table.rows = []
      · rw [if_pos h1]
        refine ⟨rfl, fun q hq => ?_⟩
        simp [requestsOf, sessionListOptions] at hq
        subst hq
        exact ⟨rfl, rfl, rfl, rfl⟩
      · rw [if_neg h1]
        by_cases h2 : table.continueToken = ""
        · rw [if_pos h2]
          refine ⟨rfl, fun q hq => ?_⟩
          simp [requestsOf, sessionListOptions, apply_ite] at hq
          subst hq
          exact ⟨rfl, rfl, rfl, rfl⟩
        · rw [if_neg h2]
          by_cases h3 : st.opts.Interactive = true
          · rw [if_pos h3]
            by_cases h4 : c = 'n'
            · subst h4
              have hrec := ih ⟨st.opts, table.continueToken, false⟩
              refine ⟨hrec.1, fun q hq => ?_⟩
              simp only [requestsOf, List.filterMap_append,
                List.mem_append] at hq
              cases hq with
              | head => exact ⟨rfl, rfl, rfl, rfl⟩
              | tail _ h => exact hrec.2 q h
            · have h4n : c ≠ 'n' := h4
              rw [if_pos h4n]
              refine ⟨rfl, fun q hq => ?_⟩
              simp [requestsOf, sessionListOptions] at hq
              subst hq
              exact ⟨rfl, rfl, rfl, rfl⟩
          · rw [if_neg h3]
            refine ⟨rfl, fun q hq => ?_⟩
            simp [requestsOf, sessionListOptions] at hq
            subst hq
            exact ⟨rfl, rfl, rfl, rfl⟩

/-- C10: Run never mutates the option record: the final state carries the
options unchanged, every field included, and every request issued in the
session carries the same limit, label selector and namespace, the ones
fixed by the options at entry. -/
theorem run_options_frame (o : HeadOptions) (mapper : GVR → Except Unit GVR)
    (fetch : Fetcher) (input : List Char) :
    (Run o mapper fetch input).final.opts = o ∧
    ∀ q ∈ requestsOf (Run o mapper fetch input).trace,
      q.1 = effectiveNamespace o ∧ q.2.2.limit = o.Limit ∧
        q.2.2.labelSelector = o.Selector := by
  unfold Run
  rcases hg : GetResourceGVR mapper o with e | gvr
  · refine ⟨rfl, ?_⟩
    intro q hq
    simp [requestsOf] at hq
  · have h := runLoop_frame fetch (effectiveNamespace o) gvr.resource input
      (initialState o)
    exact ⟨h.1, fun q hq => ⟨(h.2 q hq).1, (h.2 q hq).2.2.1,
      (h.2 q hq).2.2.2⟩⟩

/-- C10 witness: run_options_frame evaluated on a concrete two-page
interactive session; the options come back unchanged and the concrete
request carries the configured limit, selector and namespace. -/
theorem run_options_frame_witness :
    (Run { Resource := "pods", Limit := 7, ContinueToken := "",
           Interactive := true, Selector := "app=x", AllNamespaces := false,
           Namespace := "d", OutputFormat := "" }
        (fun g => .ok { group := g.group, version := "v1",
                        resource := g.resource })
        (fun _ _ _ => .ok { rows := [["a"]], continueToken := "T" })
        ['n', 'q']).final.opts =
      { Resource := "pods", Limit := 7, ContinueToken := "",
        Interactive := true, Selector := "app=x", AllNamespaces := false,
        Namespace := "d", OutputFormat := "" } ∧
    (("d", "pods",
        ({ limit := 7, continueToken := "T", labelSelector := "app=x" } :
          ListOptions)).1 = "d" ∧
      ("d", "pods",
        ({ limit := 7, continueToken := "T", labelSelector := "app=x" } :
          ListOptions)).2.2.limit = 7 ∧
      ("d", "pods",
        ({ limit := 7, continueToken := "T", labelSelector := "app=x" } :
          ListOptions)).2.2.labelSelector = "app=x") := by
  have h := run_options_frame
    { Resource := "pods", Limit := 7, ContinueToken := "",
      Interactive := true, Selector := "app=x", AllNamespaces := false,
      Namespace := "d", OutputFormat := "" }
    (fun g => .ok { group := g.group, version := "v1",
                    resource := g.resource })
    (fun _ _ _ => .ok { rows := [["a"]], continueToken := "T" })
    ['n', 'q']
  exact ⟨h.1, h.2 _ (by decide)⟩

end KubectlHead
